import Mathlib

/-! Formal model of the FitCRM client store (src/js/main.js): the client
record type, localStorage persistence via JSON stringify/parse, form
validation, search filtering, and the submit/delete handlers, together
with theorems about the claims of the specification. -/

set_option maxHeartbeats 1000000
set_option maxRecDepth 100000

/-- A client record as the app handles it.  Every field comes out of
`getFormData` (main.js:95-101), which copies `FormData` entries, and
`FormData` values of text inputs are always strings; an empty input
yields the empty string.  The field set follows the record table of the
spec (the HTML form itself is not in the sources); the hidden `id` field
is the empty string for a new client. -/
structure Client where
  id : String
  fullName : String
  age : String
  gender : String
  startDate : String
  email : String
  phone : String
  fitnessGoal : String
deriving DecidableEq

/-- A JSON value as far as the app's serialized records need: the values
JSON.stringify can place for a record field (string or number). -/
inductive Json where
  | str : String → Json
  | num : Int → Json
deriving DecidableEq

/-- Whether a JSON value is a number. -/
def Json.isNum : Json → Bool
  | .num _ => true
  | .str _ => false

/-- The key/value pairs JSON.stringify serializes for a client record
(main.js:62-63): every field of the record, each one a JSON string,
because `getFormData` only ever stores strings. -/
def clientFields (c : Client) : List (String × Json) :=
  [("id", Json.str c.id), ("fullName", Json.str c.fullName),
   ("age", Json.str c.age), ("gender", Json.str c.gender),
   ("startDate", Json.str c.startDate), ("email", Json.str c.email),
   ("phone", Json.str c.phone), ("fitnessGoal", Json.str c.fitnessGoal)]

/-- The opening brace character of a JSON object. -/
def lbrace : Char := Char.ofNat 123

/-- The closing brace character of a JSON object. -/
def rbrace : Char := Char.ofNat 125

/-- JSON string escaping for one character, modelling the escapes
JSON.stringify needs for round-tripping record fields: a quote or a
backslash is preceded by a backslash, any other character stands for
itself. -/
def escapeChar (c : Char) : List Char :=
  if c = '"' ∨ c = '\\' then ['\\', c] else [c]

/-- JSON string escaping of a character sequence. -/
def escapeList : List Char → List Char
  | [] => []
  | c :: t => escapeChar c ++ escapeList t

/-- Rendering of a JSON value, as JSON.stringify does (compact, no
spaces): strings are quoted with escaping, numbers print in decimal. -/
def renderJsonVal : Json → List Char
  | .str s => '"' :: (escapeList s.toList ++ ['"'])
  | .num n => (toString n).toList

/-- Rendering of one `key:value` member of a JSON object. -/
def renderField (kv : String × Json) : List Char :=
  '"' :: (kv.1.toList ++ ('"' :: ':' :: renderJsonVal kv.2))

/-- Comma-separated concatenation, as JSON.stringify joins object
members and array elements. -/
def joinComma : List (List Char) → List Char
  | [] => []
  | [x] => x
  | x :: y :: xs => x ++ (',' :: joinComma (y :: xs))

/-- JSON.stringify of one client record: the object written from
`clientFields`. -/
def renderClient (c : Client) : List Char :=
  lbrace :: (joinComma ((clientFields c).map renderField) ++ [rbrace])

/-- JSON.stringify of the elements after the first of a client array:
`,record` repeated, then the closing bracket. -/
def renderTail : List Client → List Char
  | [] => [']']
  | c :: cs => ',' :: (renderClient c ++ renderTail cs)

/-- JSON.stringify of a client array (main.js:63). -/
def renderClientsChars (clients : List Client) : List Char :=
  match clients with
  | [] => ['[', ']']
  | c :: cs => '[' :: (renderClient c ++ renderTail cs)

/-- The serialized text `saveClients` writes under the storage key. -/
def encodeClients (clients : List Client) : String :=
  String.mk (renderClientsChars clients)

/-- Consume an expected literal token from the input; JSON.parse fails
when the stored text does not continue as the grammar demands. -/
def expectTok : List Char → List Char → Option (List Char)
  | [], input => some input
  | _ :: _, [] => none
  | t :: ts, c :: cs => if c = t then expectTok ts cs else none

/-- Parse the body of a JSON string up to and including its closing
quote, undoing the escaping: a backslash makes the next character
literal. -/
def parseStringBody : List Char → Option (List Char × List Char)
  | [] => none
  | c :: rest =>
    if c = '"' then some ([], rest)
    else if c = '\\' then
      match rest with
      | [] => none
      | d :: rest2 =>
        match parseStringBody rest2 with
        | none => none
        | some (s, r) => some (d :: s, r)
    else
      match parseStringBody rest with
      | none => none
      | some (s, r) => some (c :: s, r)

/-- The literal text opening a string-valued member: `"key":"`. -/
def strFieldHdr (k : String) : List Char :=
  '"' :: (k.toList ++ ['"', ':', '"'])

/-- Parse one string-valued member `"key":"value"` of a record
object. -/
def parseStrField (k : String) (input : List Char) : Option (String × List Char) :=
  match expectTok (strFieldHdr k) input with
  | none => none
  | some r =>
    match parseStringBody r with
    | none => none
    | some (s, r2) => some (String.mk s, r2)

/-- Parse one serialized client record, the object `renderClient`
writes. -/
def parseClient (input : List Char) : Option (Client × List Char) :=
  match expectTok [lbrace] input with
  | none => none
  | some r0 =>
  match parseStrField "id" r0 with
  | none => none
  | some (idv, r1) =>
  match expectTok [','] r1 with
  | none => none
  | some r1c =>
  match parseStrField "fullName" r1c with
  | none => none
  | some (fnv, r2) =>
  match expectTok [','] r2 with
  | none => none
  | some r2c =>
  match parseStrField "age" r2c with
  | none => none
  | some (agv, r3) =>
  match expectTok [','] r3 with
  | none => none
  | some r3c =>
  match parseStrField "gender" r3c with
  | none => none
  | some (gdv, r4) =>
  match expectTok [','] r4 with
  | none => none
  | some r4c =>
  match parseStrField "startDate" r4c with
  | none => none
  | some (sdv, r5) =>
  match expectTok [','] r5 with
  | none => none
  | some r5c =>
  match parseStrField "email" r5c with
  | none => none
  | some (emv, r6) =>
  match expectTok [','] r6 with
  | none => none
  | some r6c =>
  match parseStrField "phone" r6c with
  | none => none
  | some (phv, r7) =>
  match expectTok [','] r7 with
  | none => none
  | some r7c =>
  match parseStrField "fitnessGoal" r7c with
  | none => none
  | some (fgv, r8) =>
  match expectTok [rbrace] r8 with
  | none => none
  | some r9 => some (⟨idv, fnv, agv, gdv, sdv, emv, phv, fgv⟩, r9)

/-- Parse the remainder of a client array after its first element:
either the closing bracket, or a comma and a further record.  The fuel
argument bounds the number of elements; each step consumes at least one
character, so the input length is always enough fuel. -/
def parseMore : Nat → List Char → Option (List Client × List Char)
  | _, [] => none
  | fuel, c :: r =>
    if c = ']' then some ([], r)
    else if c = ',' then
      match fuel with
      | 0 => none
      | f + 1 =>
        match parseClient r with
        | none => none
        | some (cl, r2) =>
          match parseMore f r2 with
          | none => none
          | some (cs, r3) => some (cl :: cs, r3)
    else none

/-- JSON.parse of a serialized client array, in the exact shape
`saveClients` writes. -/
def parseClients (input : List Char) : Option (List Client) :=
  match input with
  | [] => none
  | c :: r =>
    if c = '[' then
      if r = [']'] then some []
      else
        match parseClient r with
        | none => none
        | some (cl, r2) =>
          match parseMore r2.length r2 with
          | none => none
          | some (cs, r3) => if r3 = [] then some (cl :: cs) else none
    else none

/-- The localStorage slot under the single key `fitcrm_clients`
(main.js:2): absent before the first save, otherwise the serialized
text. -/
abbrev Store := Option String

/-- `saveClients` (main.js:62-64): JSON.stringify the full list and
write it under the storage key, replacing prior contents. -/
def saveClients (clients : List Client) : Store :=
  some (encodeClients clients)

/-- `getClients` (main.js:57-60): read the stored text; a missing key or
empty (falsy) text yields the empty list, otherwise JSON.parse.  A
stored text the parser rejects is modelled as the empty list; the app
itself only ever writes parseable text. -/
def getClients (store : Store) : List Client :=
  match store with
  | none => []
  | some s => if s = "" then [] else (parseClients s.toList).getD []

/-- A character the email regular expression accepts inside each of its
three runs: `[^\s@]` — not whitespace and not an at sign. -/
def isEmailChar (c : Char) : Bool :=
  !c.isWhitespace && c != '@'

/-- The test of the regular expression `^[^\s@]+@[^\s@]+\.[^\s@]+$`
(main.js:113-114).  The string matches exactly when it has a single at
sign (necessarily the first, since the run before it admits none), a
nonempty run of admissible characters before it, a nonempty run of
admissible characters after it, and a dot strictly inside that run
(so that the parts before and after the dot are both nonempty). -/
def emailRegexTest (s : String) : Bool :=
  match s.toList.findIdx? (fun c => c = '@') with
  | none => false
  | some i =>
    let a := s.toList.take i
    let rest := s.toList.drop (i + 1)
    !a.isEmpty && a.all isEmailChar && !rest.isEmpty && rest.all isEmailChar &&
      ((rest.drop 1).dropLast.contains '.')

/-- `validateFormData` (main.js:104-121): required fields must be truthy
(for form strings: nonempty), then the email must pass the regular
expression.  The inline message text is irrelevant to the data model and
not carried. -/
def validateFormData (data : Client) : Bool :=
  if data.fullName = "" ∨ data.email = "" ∨ data.startDate = "" then false
  else if emailRegexTest data.email = false then false
  else true

/-- JS `toLowerCase`, modelled characterwise (ASCII lowering). -/
def jsToLower (s : String) : List Char :=
  s.toList.map Char.toLower

/-- JS `String.prototype.includes`: the needle occurs as a contiguous
substring of the haystack (the empty needle always occurs). -/
def strIncludes (hay needle : List Char) : Bool :=
  match hay with
  | [] => needle.isEmpty
  | _ :: t => needle.isPrefixOf hay || strIncludes t needle

/-- The filtering step of `renderClientList` (main.js:143-145): keep the
clients whose lowered `fullName` contains the lowered query. -/
def filterClients (clients : List Client) (query : String) : List Client :=
  clients.filter (fun c => strIncludes (jsToLower c.fullName) (jsToLower query))

/-- The outcome `handleFormSubmit` signals to the user: the inline
validation message (early return), or the success alert, which reports
whether the record was updated (edit) or added, and its id. -/
inductive SubmitResult where
  | invalid : SubmitResult
  | saved : Bool → String → SubmitResult
deriving DecidableEq

/-- `handleFormSubmit` (main.js:68-92): validate the form data, abort on
failure; otherwise read the stored list, and either replace every
record whose id equals the submitted id (edit mode, id nonempty) or
assign `Date.now().toString()` as the id and append (create mode, id
empty); then persist and report success.  `Date.now()` enters as the
`now` parameter. -/
def handleFormSubmit (data : Client) (now : Nat) (store : Store) : Store × SubmitResult :=
  if validateFormData data = false then (store, .invalid)
  else
    let clients := getClients store
    if data.id = "" then
      let newData := { data with id := toString now }
      (saveClients (clients ++ [newData]), .saved false newData.id)
    else
      (saveClients (clients.map (fun c => if c.id = data.id then data else c)),
       .saved true data.id)

/-- `handleDelete` (main.js:196-206): after the confirmation prompt,
keep exactly the records whose id differs and persist; without
confirmation nothing happens. -/
def handleDelete (confirmed : Bool) (clientId : String) (store : Store) : Store :=
  if confirmed then
    saveClients ((getClients store).filter (fun c => c.id != clientId))
  else store

/-- Lookup by id as `handleView` and `handleEdit` perform it
(main.js:175, 212): `getClients().find(c => c.id === clientId)`. -/
def findById (clientId : String) (store : Store) : Option Client :=
  (getClients store).find? (fun c => c.id == clientId)

/-- Consuming a literal token succeeds on an input that starts with it,
leaving the rest. -/
theorem expectTok_app (t r : List Char) : expectTok t (t ++ r) = some r := by
  induction t with
  | nil => rfl
  | cons c ts ih => simp [expectTok, ih]

/-- Consuming a one-character token from an input headed by it. -/
theorem expectTok_one (ch : Char) (r : List Char) :
    expectTok [ch] (ch :: r) = some r := by
  simp [expectTok]

/-- The string-body parser at a closing quote. -/
theorem parseStringBody_quote (r : List Char) :
    parseStringBody ('"' :: r) = some ([], r) := by
  rw [parseStringBody.eq_def]
  simp

/-- The string-body parser at an escape: the next character is taken
literally. -/
theorem parseStringBody_backslash (d : Char) (r : List Char) :
    parseStringBody ('\\' :: d :: r) =
      match parseStringBody r with
      | none => none
      | some (s, r2) => some (d :: s, r2) := by
  rw [parseStringBody.eq_def]
  simp

/-- The string-body parser at an ordinary character. -/
theorem parseStringBody_other (c : Char) (r : List Char) (h1 : c ≠ '"') (h2 : c ≠ '\\') :
    parseStringBody (c :: r) =
      match parseStringBody r with
      | none => none
      | some (s, r2) => some (c :: s, r2) := by
  rw [parseStringBody.eq_def]
  simp [h1, h2]

/-- The string-body parser undoes the escaping: on an escaped text
followed by the closing quote it returns the original text and the
remaining input. -/
theorem parseStringBody_escape (s r : List Char) :
    parseStringBody (escapeList s ++ ('"' :: r)) = some (s, r) := by
  induction s with
  | nil => rw [escapeList, List.nil_append, parseStringBody_quote]
  | cons c t ih =>
    by_cases h : c = '"' ∨ c = '\\'
    · rw [escapeList, escapeChar, if_pos h]
      simp only [List.cons_append, List.append_assoc, List.nil_append]
      rw [parseStringBody_backslash, ih]
    · push_neg at h
      rw [escapeList, escapeChar, if_neg (by simpa using h)]
      simp only [List.cons_append, List.singleton_append, List.nil_append, List.append_assoc]
      rw [parseStringBody_other c _ h.1 h.2, ih]

/-- Rebuilding a string from its character list. -/
theorem stringMk_data (s : String) : String.mk s.data = s := rfl

/-- A rendered string member parses back to its value. -/
theorem parseStrField_round (k s : String) (r : List Char) :
    parseStrField k (strFieldHdr k ++ (escapeList s.data ++ ('"' :: r))) =
      some (s, r) := by
  simp [parseStrField, expectTok_app, parseStringBody_escape, stringMk_data]

/-- A rendered string member is its header followed by the escaped value
and the closing quote. -/
theorem renderField_str (k s : String) (r : List Char) :
    renderField (k, Json.str s) ++ r =
      strFieldHdr k ++ (escapeList s.data ++ ('"' :: r)) := by
  simp [renderField, renderJsonVal, strFieldHdr, String.toList]

/-- A rendered client record parses back to itself, leaving the
remaining input untouched. -/
theorem parseClient_render (c : Client) (r : List Char) :
    parseClient (renderClient c ++ r) = some (c, r) := by
  simp only [renderClient, clientFields, List.map_cons, List.map_nil, joinComma,
    List.cons_append, List.append_assoc, List.singleton_append]
  simp only [renderField_str]
  simp [parseClient, expectTok_one, parseStrField_round]

/-- The serialized tail of a client array is at least as long as the
list it renders, so the input length is always enough parsing fuel. -/
theorem renderTail_length (cs : List Client) : cs.length ≤ (renderTail cs).length := by
  induction cs with
  | nil => simp [renderTail]
  | cons c t ih =>
    simp only [renderTail, List.length_cons, List.length_append]
    omega

/-- The array-tail parser recovers the rendered records, given enough
fuel. -/
theorem parseMore_tail (cs : List Client) :
    ∀ fuel : Nat, cs.length ≤ fuel →
      ∀ r : List Char, parseMore fuel (renderTail cs ++ r) = some (cs, r) := by
  induction cs with
  | nil =>
    intro fuel _ r
    rw [renderTail, List.singleton_append, parseMore.eq_def]
    simp
  | cons c t ih =>
    intro fuel hfuel r
    match fuel with
    | 0 => exact absurd hfuel (by simp)
    | f + 1 =>
      have ht : t.length ≤ f := by simpa using hfuel
      simp only [renderTail, List.cons_append, List.append_assoc]
      rw [parseMore.eq_def]
      simp [parseClient_render, ih f ht r]

/-- A rendered client record starts with the opening brace. -/
theorem renderClient_head (c : Client) :
    renderClient c = lbrace :: (joinComma ((clientFields c).map renderField) ++ [rbrace]) := rfl

/-- JSON.parse recovers exactly the list JSON.stringify serialized. -/
theorem parseClients_render (clients : List Client) :
    parseClients (renderClientsChars clients) = some clients := by
  match clients with
  | [] => rfl
  | c :: cs =>
    have hne : renderClient c ++ renderTail cs ≠ [']'] := by
      rw [renderClient_head]
      simp only [List.cons_append, ne_eq, List.cons.injEq, not_and]
      intro h
      exact absurd h (by decide)
    have hpm := parseMore_tail cs (renderTail cs).length (renderTail_length cs) []
    rw [List.append_nil] at hpm
    rw [renderClientsChars]
    simp [parseClients, hne, parseClient_render, hpm]

/-- The serialized text always opens with a bracket, so it is never the
empty (falsy) string. -/
theorem encodeClients_ne_empty (clients : List Client) : encodeClients clients ≠ "" := by
  intro h
  have hd : renderClientsChars clients = [] := congrArg String.data h
  match clients with
  | [] => simp [renderClientsChars] at hd
  | c :: cs => simp [renderClientsChars] at hd

/-- Round-trip of the storage layer: reading back what `saveClients`
wrote yields the same list, every field of every record and the order
preserved. -/
theorem getClients_save (clients : List Client) :
    getClients (saveClients clients) = clients := by
  rw [saveClients, getClients, if_neg (encodeClients_ne_empty clients)]
  have : (encodeClients clients).toList = renderClientsChars clients := rfl
  rw [this, parseClients_render]
  rfl

/-- JS `includes` with the empty needle always holds. -/
theorem strIncludes_nil (hay : List Char) : strIncludes hay [] = true := by
  cases hay with
  | nil => rfl
  | cons c t => simp [strIncludes, List.isPrefixOf]

/-- The edit branch of `handleFormSubmit`: with valid data and a
nonempty submitted id, every stored record whose id matches is replaced
by the submitted data, positions untouched, and the result is persisted
with a success outcome. -/
theorem handleFormSubmit_edit (data : Client) (now : Nat) (store : Store)
    (hv : validateFormData data = true) (hid : data.id ≠ "") :
    handleFormSubmit data now store =
      (saveClients ((getClients store).map (fun c => if c.id = data.id then data else c)),
       SubmitResult.saved true data.id) := by
  simp [handleFormSubmit, hv, hid]

/-- The create branch of `handleFormSubmit`: with valid data and an
empty submitted id, the record is appended with the timestamp id and the
result is persisted with a success outcome. -/
theorem handleFormSubmit_create (data : Client) (now : Nat) (store : Store)
    (hv : validateFormData data = true) (hid : data.id = "") :
    handleFormSubmit data now store =
      (saveClients (getClients store ++ [{ data with id := toString now }]),
       SubmitResult.saved false (toString now)) := by
  simp [handleFormSubmit, hv, hid]

/-- Searching an appended list when the left part has no match. -/
theorem find?_append_none {p : Client → Bool} {l1 : List Client} (l2 : List Client)
    (h : l1.find? p = none) : (l1 ++ l2).find? p = l2.find? p := by
  rw [List.find?_append, h, Option.none_or]

/-- C4: for every sequence of client records, saving the sequence and
then loading it returns a sequence equal to the original, with order and
every field of every record preserved. -/
theorem load_save_roundtrip (records : List Client) :
    getClients (saveClients records) = records :=
  getClients_save records

/-- C6: `filterClients` (the filtering step of `renderClientList`)
returns exactly the subsequence of records whose `fullName` contains the
query case-insensitively, in the original order: with the empty query it
is the whole list unchanged; it is always a sublist of the input (order
preserved, no mutation); every returned record matches the query; and
every input record that matches the query is returned. -/
theorem filterClients_spec (records : List Client) (query : String) :
    filterClients records "" = records ∧
    List.Sublist (filterClients records query) records ∧
    (filterClients records query).all
      (fun c => strIncludes (jsToLower c.fullName) (jsToLower query)) = true ∧
    records.all
      (fun c => !strIncludes (jsToLower c.fullName) (jsToLower query) ||
        decide (c ∈ filterClients records query)) = true := by
  refine ⟨?_, List.filter_sublist records, ?_, ?_⟩
  · rw [filterClients]
    apply List.filter_eq_self.mpr
    intro a _
    have h0 : jsToLower "" = [] := rfl
    rw [h0, strIncludes_nil]
  · rw [List.all_eq_true]
    intro c hc
    rw [filterClients] at hc
    exact (List.mem_filter.mp hc).2
  · rw [List.all_eq_true]
    intro c hc
    cases h : strIncludes (jsToLower c.fullName) (jsToLower query) with
    | false => simp
    | true =>
      have : c ∈ filterClients records query := List.mem_filter.mpr ⟨hc, h⟩
      simp [this]

/-- C7: after a confirmed `handleDelete` of an id, `findById` on that id
is not-found; deleting the same id again leaves the store exactly as the
single delete did (idempotent); and the persisted records are exactly
the previous ones whose id differs, so a delete of an id no record
carries keeps the record list unchanged and raises no error. -/
theorem delete_idempotent_not_found (clientId : String) (store : Store) :
    findById clientId (handleDelete true clientId store) = none ∧
    handleDelete true clientId (handleDelete true clientId store) =
      handleDelete true clientId store ∧
    getClients (handleDelete true clientId store) =
      (getClients store).filter (fun c => c.id != clientId) := by
  have hdel : handleDelete true clientId store =
      saveClients ((getClients store).filter (fun c => c.id != clientId)) := by
    rw [handleDelete, if_pos rfl]
  have hlist : getClients (handleDelete true clientId store) =
      (getClients store).filter (fun c => c.id != clientId) := by
    rw [hdel, getClients_save]
  refine ⟨?_, ?_, hlist⟩
  · rw [findById]
    apply List.find?_eq_none.mpr
    intro x hx
    rw [hlist] at hx
    have := (List.mem_filter.mp hx).2
    simpa using this
  · conv_lhs => rw [handleDelete, if_pos rfl, hlist]
    rw [hdel]
    congr 1
    apply List.filter_eq_self.mpr
    intro a ha
    exact (List.mem_filter.mp ha).2

/-- C5: when the candidate fails validation, `handleFormSubmit` aborts
before touching storage: the store (and hence the persisted record
sequence) is exactly what it was, and the outcome is the inline
validation message.  This covers both create and update attempts, which
share the early return. -/
theorem invalid_submit_no_side_effects (data : Client) (now : Nat) (store : Store)
    (h : validateFormData data = false) :
    (handleFormSubmit data now store).1 = store ∧
    (handleFormSubmit data now store).2 = SubmitResult.invalid := by
  rw [handleFormSubmit, if_pos h]
  exact ⟨rfl, rfl⟩

/-- Witness for C5 at a concrete invalid candidate (empty full name)
and a concrete nonempty store. -/
theorem invalid_submit_no_side_effects_witness :
    (handleFormSubmit ⟨"", "", "", "", "2024-01-01", "a@b.c", "", ""⟩ 5
        (saveClients [⟨"1", "Alice A", "", "", "2024-01-01", "alice@example.com", "", ""⟩])).1 =
      saveClients [⟨"1", "Alice A", "", "", "2024-01-01", "alice@example.com", "", ""⟩] ∧
    (handleFormSubmit ⟨"", "", "", "", "2024-01-01", "a@b.c", "", ""⟩ 5
        (saveClients [⟨"1", "Alice A", "", "", "2024-01-01", "alice@example.com", "", ""⟩])).2 =
      SubmitResult.invalid :=
  invalid_submit_no_side_effects _ 5 _ (by decide)

/-- C3 counterexample: a candidate whose full name is a single space —
whitespace-only, so empty after trimming — passes `validateFormData`,
because the code only tests JS truthiness (nonemptiness) and never
trims. -/
theorem whitespace_fullName_accepted :
    validateFormData ⟨"", " ", "", "", "2024-01-01", "a@b.c", "", ""⟩ = true := by
  decide

/-- C3 amended: `validateFormData` accepts a candidate exactly when its
`fullName` and `startDate` are nonempty strings (no whitespace trimming,
so a whitespace-only `fullName` passes) and its `email` matches the
regular expression (which also forces `email` nonempty). -/
theorem validateFormData_characterization (data : Client) :
    validateFormData data =
      ((data.fullName != "") && (data.startDate != "") && emailRegexTest data.email) := by
  rw [validateFormData]
  by_cases h2 : data.email = ""
  · have he : emailRegexTest data.email = false := by rw [h2]; rfl
    have he0 : emailRegexTest "" = false := rfl
    by_cases h1 : data.fullName = "" <;> by_cases h3 : data.startDate = "" <;>
      simp [h1, h2, h3, he, he0]
  · by_cases h1 : data.fullName = "" <;> by_cases h3 : data.startDate = "" <;>
      cases he : emailRegexTest data.email <;> simp [h1, h2, h3, he]

/-- C1 counterexample: updating with id "2" against a store holding only
a record with id "1" does not fail with any not-found error — the code
has no NotFoundError at all: it reports the update as a success and
persists the record list unchanged. -/
theorem update_missing_id_no_error :
    (handleFormSubmit ⟨"2", "Bob B", "", "", "2024-01-02", "bob@example.com", "", ""⟩ 7
        (saveClients [⟨"1", "Alice A", "", "", "2024-01-01", "alice@example.com", "", ""⟩])).2 =
      SubmitResult.saved true "2" ∧
    getClients (handleFormSubmit ⟨"2", "Bob B", "", "", "2024-01-02", "bob@example.com", "", ""⟩ 7
        (saveClients [⟨"1", "Alice A", "", "", "2024-01-01", "alice@example.com", "", ""⟩])).1 =
      [⟨"1", "Alice A", "", "", "2024-01-01", "alice@example.com", "", ""⟩] := by
  constructor <;> decide

/-- C1 amended: for every valid candidate with a nonempty id, the update
persists the stored sequence with every record whose id matches replaced
by the candidate (the id is preserved, since the candidate carries it)
and reports success; when no record matches, the mapped sequence equals
the original, which is re-persisted unchanged — no NotFoundError is
raised. -/
theorem update_replaces_matching (data : Client) (now : Nat) (store : Store)
    (hv : validateFormData data = true) (hid : data.id ≠ "") :
    (handleFormSubmit data now store).2 = SubmitResult.saved true data.id ∧
    getClients (handleFormSubmit data now store).1 =
      (getClients store).map (fun c => if c.id = data.id then data else c) := by
  rw [handleFormSubmit_edit data now store hv hid]
  exact ⟨rfl, getClients_save _⟩

/-- Witness for C1 amended: a concrete matching update against a
two-record store. -/
theorem update_replaces_matching_witness :
    (handleFormSubmit ⟨"1", "Alice B", "", "", "2024-01-01", "alice@example.com", "", ""⟩ 7
        (saveClients [⟨"1", "Alice A", "", "", "2024-01-01", "alice@example.com", "", ""⟩,
          ⟨"2", "Bob B", "", "", "2024-01-02", "bob@example.com", "", ""⟩])).2 =
      SubmitResult.saved true "1" ∧
    getClients (handleFormSubmit ⟨"1", "Alice B", "", "", "2024-01-01", "alice@example.com", "", ""⟩ 7
        (saveClients [⟨"1", "Alice A", "", "", "2024-01-01", "alice@example.com", "", ""⟩,
          ⟨"2", "Bob B", "", "", "2024-01-02", "bob@example.com", "", ""⟩])).1 =
      (getClients (saveClients [⟨"1", "Alice A", "", "", "2024-01-01", "alice@example.com", "", ""⟩,
          ⟨"2", "Bob B", "", "", "2024-01-02", "bob@example.com", "", ""⟩])).map
        (fun c => if c.id = "1" then ⟨"1", "Alice B", "", "", "2024-01-01", "alice@example.com", "", ""⟩ else c) :=
  update_replaces_matching _ 7 _ (by decide) (by decide)

/-- C10: a successful update maps the stored sequence positionwise:
the length is unchanged, and at every index the record is untouched when
its id differs from the submitted id and is the submitted data when it
matches — so non-target records keep all their fields and their
positions, and the updated record stays at its original position. -/
theorem update_frame (data : Client) (now : Nat) (store : Store)
    (hv : validateFormData data = true) (hid : data.id ≠ "") :
    (getClients (handleFormSubmit data now store).1).length = (getClients store).length ∧
    ∀ i : Nat, (getClients (handleFormSubmit data now store).1)[i]? =
      ((getClients store)[i]?).map (fun c => if c.id = data.id then data else c) := by
  have hmap : getClients (handleFormSubmit data now store).1 =
      (getClients store).map (fun c => if c.id = data.id then data else c) := by
    rw [handleFormSubmit_edit data now store hv hid]
    exact getClients_save _
  constructor
  · rw [hmap, List.length_map]
  · intro i
    rw [hmap, List.getElem?_map]

/-- Witness for C10: a concrete update against a two-record store in
which only the first record matches. -/
theorem update_frame_witness :
    (getClients (handleFormSubmit ⟨"1", "Alice B", "", "", "2024-01-01", "alice@example.com", "", ""⟩ 7
        (saveClients [⟨"1", "Alice A", "", "", "2024-01-01", "alice@example.com", "", ""⟩,
          ⟨"2", "Bob B", "", "", "2024-01-02", "bob@example.com", "", ""⟩])).1).length =
      (getClients (saveClients [⟨"1", "Alice A", "", "", "2024-01-01", "alice@example.com", "", ""⟩,
          ⟨"2", "Bob B", "", "", "2024-01-02", "bob@example.com", "", ""⟩])).length ∧
    ∀ i : Nat, (getClients (handleFormSubmit ⟨"1", "Alice B", "", "", "2024-01-01", "alice@example.com", "", ""⟩ 7
        (saveClients [⟨"1", "Alice A", "", "", "2024-01-01", "alice@example.com", "", ""⟩,
          ⟨"2", "Bob B", "", "", "2024-01-02", "bob@example.com", "", ""⟩])).1)[i]? =
      ((getClients (saveClients [⟨"1", "Alice A", "", "", "2024-01-01", "alice@example.com", "", ""⟩,
          ⟨"2", "Bob B", "", "", "2024-01-02", "bob@example.com", "", ""⟩]))[i]?).map
        (fun c => if c.id = "1" then ⟨"1", "Alice B", "", "", "2024-01-01", "alice@example.com", "", ""⟩ else c) :=
  update_frame _ 7 _ (by decide) (by decide)

/-- C8: creating a valid candidate (empty submitted id) and then looking
the assigned id up returns a record whose every field equals the
candidate's, except the id, which is the assigned timestamp string.
The freshness hypothesis — no stored record already carries the assigned
id — always holds when ids are unique; its only failure mode is the
same-millisecond `Date.now()` collision recorded under C2. -/
theorem create_then_findById (data : Client) (now : Nat) (store : Store)
    (hv : validateFormData data = true) (hid : data.id = "")
    (hfresh : ∀ c ∈ getClients store, c.id ≠ toString now) :
    findById (toString now) (handleFormSubmit data now store).1 =
      some { data with id := toString now } := by
  rw [findById]
  have hlist : getClients (handleFormSubmit data now store).1 =
      getClients store ++ [{ data with id := toString now }] := by
    rw [handleFormSubmit_create data now store hv hid]
    exact getClients_save _
  rw [hlist]
  have hnone : (getClients store).find? (fun c => c.id == toString now) = none := by
    apply List.find?_eq_none.mpr
    intro x hx
    simpa using hfresh x hx
  rw [find?_append_none _ hnone]
  simp [List.find?]

/-- Witness for C8: a concrete create into the empty store. -/
theorem create_then_findById_witness :
    findById (toString 1700000000000) (handleFormSubmit
        ⟨"", "Jane Doe", "30", "", "2024-01-01", "jane@example.com", "", ""⟩
        1700000000000 none).1 =
      some ⟨toString 1700000000000, "Jane Doe", "30", "", "2024-01-01", "jane@example.com", "", ""⟩ :=
  create_then_findById _ 1700000000000 none (by decide) (by decide) (by simp [getClients])

/-- C9 counterexample: submitting the form with age text "30" persists a
record whose serialized `age` member is the JSON string "30" — present
and not a number — because `getFormData` copies every `FormData` entry
as a string and nothing ever converts `age` to an integer. -/
theorem persisted_age_is_string :
    (getClients (handleFormSubmit
        ⟨"", "Jane Doe", "30", "", "2024-01-01", "jane@example.com", "", ""⟩
        1700000000000 none).1).map (fun c => List.lookup "age" (clientFields c)) =
      [some (Json.str "30")] ∧
    Json.isNum (Json.str "30") = false := by
  constructor <;> decide

/-- C9 amended: every record the form persists carries its `age` as the
raw submitted string (possibly empty), serialized as a JSON string and
never converted to an integer: a successful create appends the candidate
with the timestamp id, and that record's serialized `age` member is the
JSON string equal to the candidate's `age` text. -/
theorem create_persists_age_as_string (data : Client) (now : Nat) (store : Store)
    (hv : validateFormData data = true) (hid : data.id = "") :
    getClients (handleFormSubmit data now store).1 =
      getClients store ++ [{ data with id := toString now }] ∧
    List.lookup "age" (clientFields { data with id := toString now }) =
      some (Json.str data.age) := by
  constructor
  · rw [handleFormSubmit_create data now store hv hid]
    exact getClients_save _
  · rfl

/-- Witness for C9 amended: a concrete create into the empty store. -/
theorem create_persists_age_as_string_witness :
    getClients (handleFormSubmit
        ⟨"", "Jane Doe", "31", "", "2024-01-01", "jane@example.com", "", ""⟩
        1700000000001 none).1 =
      getClients none ++ [{ (⟨"", "Jane Doe", "31", "", "2024-01-01", "jane@example.com", "", ""⟩ : Client)
        with id := toString 1700000000001 }] ∧
    List.lookup "age" (clientFields { (⟨"", "Jane Doe", "31", "", "2024-01-01", "jane@example.com", "", ""⟩ : Client)
        with id := toString 1700000000001 }) =
      some (Json.str "31") :=
  create_persists_age_as_string _ 1700000000001 none (by decide) (by decide)

/-- C2: the failing input for id uniqueness — two creations whose
`Date.now()` falls in the same millisecond. The code assigns
`Date.now().toString()` with no collision avoidance, so both persisted
records carry the identical id "1700000000000", violating the claim that
the id of each new record is distinct from every existing record's. -/
theorem same_millisecond_creates_collide :
    (getClients (handleFormSubmit
        ⟨"", "John Roe", "", "", "2024-01-02", "john@example.com", "", ""⟩
        1700000000000
        (handleFormSubmit
          ⟨"", "Jane Doe", "", "", "2024-01-01", "jane@example.com", "", ""⟩
          1700000000000 none).1).1).map Client.id =
      ["1700000000000", "1700000000000"] := by
  decide
